import Mathlib

set_option maxHeartbeats 1000000

/-
Verification development for the naming-resolution core: record
construction, per-service reads (CNS proxy reader, ZNS substate model),
layered precedence, facade dispatch, namehash presentation, and
construction-time configuration checks.
-/

/-- Error codes thrown through the async resolution call chain
(src/src/errors/resolutionError). -/
inductive ResolutionErrorCode where
  | UnregisteredDomain
  | UnspecifiedResolver
  | RecordNotFound
  | InvalidTwitterVerification
  | UnsupportedDomain
  | UnsupportedMethod
  | UnsupportedService
deriving DecidableEq

/-- Error codes thrown synchronously at service construction
(src/src/errors/configurationError). -/
inductive ConfigurationErrorCode where
  | UnsupportedNetwork
  | InvalidConfigurationField
  | CustomNetworkConfigMissing
  | UnspecifiedNetwork
deriving DecidableEq

/-- A JavaScript object with string keys and string values (the
CryptoRecords shape), embedded as an insertion-ordered association list
with at most one entry per key. -/
abbrev Records := List (String × String)

/-- Property access obj[k]: the value stored under k, if present. -/
def objGet : Records → String → Option String
  | [], _ => none
  | (k2, v) :: rest, k => if k2 = k then some v else objGet rest k

/-- Property assignment obj[k] = v: overwrite in place, or append. -/
def objInsert : Records → String → String → Records
  | [], k, v => [(k, v)]
  | (k2, v2) :: rest, k, v =>
      if k2 = k then (k2, v) :: rest else (k2, v2) :: objInsert rest k v

/-- Object.keys: the keys in insertion order. -/
def objKeys (r : Records) : List String := r.map Prod.fst

theorem objGet_objInsert_self (r : Records) (k v : String) :
    objGet (objInsert r k v) k = some v := by
  induction r with
  | nil => simp [objInsert, objGet]
  | cons p rest ih =>
      obtain ⟨pk, pv⟩ := p
      by_cases h : pk = k
      · subst h
        simp [objInsert, objGet]
      · simp [objInsert, objGet, h, ih]

theorem objGet_objInsert_ne (r : Records) (k v k2 : String) (h : k2 ≠ k) :
    objGet (objInsert r k v) k2 = objGet r k2 := by
  induction r with
  | nil => simp [objInsert, objGet, Ne.symm h]
  | cons p rest ih =>
      obtain ⟨pk, pv⟩ := p
      by_cases hk : pk = k
      · subst hk
        simp [objInsert, objGet, Ne.symm h]
      · simp [objInsert, objGet, hk, ih]

theorem mem_objKeys_objInsert (r : Records) (k v k2 : String) :
    k2 ∈ objKeys (objInsert r k v) ↔ k2 ∈ objKeys r ∨ k2 = k := by
  induction r with
  | nil => simp [objInsert, objKeys]
  | cons p rest ih =>
      obtain ⟨pk, pv⟩ := p
      by_cases hk : pk = k
      · subst hk
        simp only [objKeys] at ih
        simp [objInsert, objKeys, List.mem_cons]
        tauto
      · simp only [objInsert, if_neg hk, objKeys, List.map_cons, List.mem_cons]
        simp only [objKeys] at ih
        rw [ih]
        tauto

theorem nodup_objKeys_objInsert (r : Records) (k v : String)
    (h : (objKeys r).Nodup) : (objKeys (objInsert r k v)).Nodup := by
  induction r with
  | nil => simp [objInsert, objKeys]
  | cons p rest ih =>
      obtain ⟨pk, pv⟩ := p
      simp only [objKeys, List.map_cons, List.nodup_cons] at h
      by_cases hk : pk = k
      · subst hk
        have hrw : objInsert ((pk, pv) :: rest) pk v = (pk, v) :: rest := by
          simp [objInsert]
        rw [hrw]
        simpa [objKeys, List.nodup_cons] using h
      · have ih2 := ih h.2
        simp only [objInsert, if_neg hk, objKeys, List.map_cons, List.nodup_cons]
        refine ⟨?_, ih2⟩
        intro hmem
        have hcase := (mem_objKeys_objInsert rest k v pk).1 hmem
        rcases hcase with h1 | h2
        · exact h.1 h1
        · exact hk h2

/-- The values argument accepted by constructRecords: undefined, a
parallel array (whose entries may themselves be undefined), or a value
map. -/
inductive ValuesArg where
  | undef
  | arr (vs : List (Option String))
  | map (m : Records)

/-- The value given to a key: (values instanceof Array ? values[index]
: values?.[key]) || two single quotes, from src/src/utils/index.ts. -/
def valueFor : ValuesArg → Nat → String → String
  | .undef, _, _ => ""
  | .arr vs, i, _ => ((vs.get? i).getD none).getD ""
  | .map m, _, k => (objGet m k).getD ""

/-- The keys.forEach loop body of constructRecords, with the running
object and index made explicit. -/
def constructRecordsGo (values : ValuesArg) :
    List String → Nat → Records → Records
  | [], _, acc => acc
  | k :: ks, i, acc =>
      constructRecordsGo values ks (i + 1) (objInsert acc k (valueFor values i k))

/-- constructRecords from src/src/utils/index.ts: build a record object
over the requested keys, defaulting each absent value to the empty
string. -/
def constructRecords (keys : List String) (values : ValuesArg) : Records :=
  constructRecordsGo values keys 0 []

theorem mem_objKeys_constructRecordsGo (values : ValuesArg) (ks : List String)
    (i : Nat) (acc : Records) (k : String) :
    k ∈ objKeys (constructRecordsGo values ks i acc) ↔
      k ∈ objKeys acc ∨ k ∈ ks := by
  induction ks generalizing i acc with
  | nil => simp [constructRecordsGo]
  | cons k1 ks ih =>
      simp only [constructRecordsGo]
      rw [ih]
      rw [mem_objKeys_objInsert]
      simp [List.mem_cons]
      tauto

theorem nodup_objKeys_constructRecordsGo (values : ValuesArg)
    (ks : List String) (i : Nat) (acc : Records)
    (h : (objKeys acc).Nodup) :
    (objKeys (constructRecordsGo values ks i acc)).Nodup := by
  induction ks generalizing i acc with
  | nil => simpa [constructRecordsGo] using h
  | cons k1 ks ih =>
      simp only [constructRecordsGo]
      exact ih _ _ (nodup_objKeys_objInsert acc k1 _ h)

theorem objGet_constructRecordsGo_key (values : ValuesArg) (ks : List String)
    (i : Nat) (acc : Records) (k : String) (w : String)
    (hw : ∀ j, ks.get? j = some k → valueFor values (i + j) k = w) :
    objGet (constructRecordsGo values ks i acc) k =
      if k ∈ ks then some w else objGet acc k := by
  induction ks generalizing i acc with
  | nil => simp [constructRecordsGo]
  | cons k1 ks ih =>
      simp only [constructRecordsGo]
      have hw2 : ∀ j, ks.get? j = some k → valueFor values (i + 1 + j) k = w := by
        intro j hj
        have := hw (j + 1) (by simpa using hj)
        have harith : i + (j + 1) = i + 1 + j := by omega
        rwa [harith] at this
      rw [ih (i + 1) _ hw2]
      by_cases hmem : k ∈ ks
      · simp [hmem, List.mem_cons]
      · by_cases heq : k = k1
        · subst heq
          have hv : valueFor values i k = w := by
            have := hw 0 (by simp)
            simpa using this
          simp [hmem, List.mem_cons, objGet_objInsert_self, hv]
        · simp [hmem, List.mem_cons, heq,
            objGet_objInsert_ne acc k1 (valueFor values i k1) k heq]

theorem mem_objKeys_constructRecords (keys : List String) (values : ValuesArg)
    (k : String) :
    k ∈ objKeys (constructRecords keys values) ↔ k ∈ keys := by
  unfold constructRecords
  rw [mem_objKeys_constructRecordsGo]
  simp [objKeys]

theorem nodup_objKeys_constructRecords (keys : List String)
    (values : ValuesArg) :
    (objKeys (constructRecords keys values)).Nodup := by
  unfold constructRecords
  exact nodup_objKeys_constructRecordsGo values keys 0 [] (by simp [objKeys])

theorem objGet_constructRecords_key (keys : List String) (values : ValuesArg)
    (k : String) (w : String)
    (hw : ∀ j, keys.get? j = some k → valueFor values j k = w) :
    objGet (constructRecords keys values) k =
      if k ∈ keys then some w else none := by
  unfold constructRecords
  rw [objGet_constructRecordsGo_key values keys 0 [] k w (by simpa using hw)]
  simp [objGet]

theorem length_objKeys (r : Records) : (objKeys r).length = r.length := by
  simp [objKeys]

theorem length_constructRecords (keys : List String) (values : ValuesArg) :
    (constructRecords keys values).length = keys.dedup.length := by
  have nd1 : (objKeys (constructRecords keys values)).Nodup :=
    nodup_objKeys_constructRecords keys values
  have nd2 : keys.dedup.Nodup := List.nodup_dedup keys
  have hmem : ∀ k, k ∈ objKeys (constructRecords keys values) ↔ k ∈ keys.dedup := by
    intro k
    rw [mem_objKeys_constructRecords, List.mem_dedup]
  have hperm := (List.perm_ext_iff_of_nodup nd1 nd2).2 hmem
  have := hperm.length_eq
  rw [length_objKeys] at this
  exact this

/-- Character-level split on the dot character, with the JavaScript
String.prototype.split semantics: the empty string yields one empty
label, and separators at either end yield empty labels. -/
def splitDotAux : List Char → List Char → List String
  | [], acc => [String.mk acc.reverse]
  | c :: rest, acc =>
      if c = '.' then String.mk acc.reverse :: splitDotAux rest []
      else splitDotAux rest (c :: acc)

/-- domain.split with a dot separator. -/
def splitDot (s : String) : List String := splitDotAux s.data []

/-- String.prototype.startsWith, over the character lists. -/
def strStartsWith (s p : String) : Bool := p.data.isPrefixOf s.data

/-- String.prototype.endsWith, over the character lists. -/
def strEndsWith (s p : String) : Bool := p.data.isSuffixOf s.data

/-- ASCII lower-casing of one character, the fragment of
String.prototype.toLowerCase the domain alphabet uses. -/
def charToLower (c : Char) : Char :=
  if 'A' ≤ c && c ≤ 'Z' then Char.ofNat (c.toNat + 32) else c

def isWhitespaceChar (c : Char) : Bool :=
  c = ' ' || c = '\t' || c = '\n' || c = '\r'

/-- String.prototype.trim: drop whitespace at both ends. -/
def trimChars (cs : List Char) : List Char :=
  ((cs.dropWhile isWhitespaceChar).reverse.dropWhile isWhitespaceChar).reverse

/-- Resolution.prepareDomain: domain ? domain.trim().toLowerCase() :
the empty string (src/unnamed/part_000). -/
def prepareDomain (domain : String) : String :=
  if domain = "" then ""
  else String.mk (trimChars (domain.data.map charToLower))

/-- The NamingServiceName enumeration referenced across the sources:
the facade service map registers CNS and ZNS, while the suffix table
also names UNS and ENS. -/
inductive NamingServiceName where
  | CNS
  | ZNS
  | ENS
  | UNS
deriving DecidableEq

/-- The static suffix table from src/src/utils/index.ts. -/
def domainExtensionToNamingServiceName : List (String × NamingServiceName) :=
  [("crypto", .UNS), ("zil", .ZNS), ("eth", .ENS), ("luxe", .ENS),
   ("xyz", .ENS), ("kred", .ENS), ("reverse", .ENS)]

/-- findNamingServiceName from src/src/utils/index.ts: pop the last
dot-separated label; an empty label means no service, a listed suffix
maps through the table, and any other suffix defaults to the entry of
the crypto suffix. -/
def findNamingServiceName (domain : String) : Option NamingServiceName :=
  match (splitDot domain).getLast? with
  | none => none
  | some ext =>
      if ext = "" then none
      else
        match domainExtensionToNamingServiceName.lookup ext with
        | some n => some n
        | none => some NamingServiceName.UNS

/-- Which service instance handles a given service name: the facade
constructor registers exactly the CNS and the ZNS instances
(src/unnamed/part_000, constructor of Resolution). -/
inductive ServiceRef where
  | cns
  | zns
deriving DecidableEq

def serviceMapLookup : NamingServiceName → Option ServiceRef
  | .CNS => some .cns
  | .ZNS => some .zns
  | _ => none

/-- Resolution.getNamingMethod: index the service map with the found
service name. -/
def Resolution.getNamingMethod (domain : String) : Option ServiceRef :=
  (findNamingServiceName domain).bind serviceMapLookup

/-- Resolution.getNamingMethodOrThrow: as getNamingMethod, throwing
UnsupportedDomain when no service is found. -/
def Resolution.getNamingMethodOrThrow (domain : String) :
    Except ResolutionErrorCode ServiceRef :=
  match Resolution.getNamingMethod domain with
  | none => .error .UnsupportedDomain
  | some s => .ok s

/-- Modelled from the spec: the NullAddresses constants of the types
module, which is not under src. The empty string and the zero-address
forms denote an unset address. -/
def NullAddresses : List String :=
  ["0x", "0x0000000000000000000000000000000000000000",
   "0x0000000000000000000000000000000000000000000000000000000000000000"]

/-- isNullAddress from src/src/utils/index.ts: a missing or falsy key,
or one of the null-address constants. -/
def isNullAddress : Option String → Bool
  | none => true
  | some s => s = "" || NullAddresses.contains s

/-- The decoded result of the ProxyReader getData call:
[resolver, owner, values]. -/
structure ProxyData where
  resolver : Option String
  owner : Option String
  values : Option (List String)

/-- The verified projection of ProxyData delivered once the resolver
check passes. -/
structure VerifiedData where
  owner : String
  resolver : String
  values : List String
deriving DecidableEq

/-- One per-chain reader of the CNS family, with its external
collaborators embedded as chain-state functions: the hashing algorithm,
the ProxyReader contract state (owner, resolver, current record values,
key preimages of key hashes), the resolver-contract event logs, the
configured legacy-resolver list, and the signature verifier. -/
structure CnsEnv where
  namehash : String → String
  registryAddress : String
  ownerOf : String → Option String
  resolverOf : String → Option String
  recordValue : String → String → String
  keyOfHash : String → String
  resetBlocks : String → List Nat
  newKeyLogs : String → List (Nat × String)
  legacyResolvers : List String
  verifyTwitterSignature : String → String → String → String → Bool

/-- Cns.get: one getData call on the ProxyReader, returning the
resolver, the owner and the values of the requested keys
(src/src/Cns.ts lines 154 to 160). -/
def Cns.get (env : CnsEnv) (tokenId : String) (keys : List String) : ProxyData :=
  { resolver := env.resolverOf tokenId
    owner := env.ownerOf tokenId
    values := some (keys.map (env.recordValue tokenId)) }

/-- Cns.getVerifiedData (src/src/Cns.ts lines 108 to 118): an empty
resolver with an empty owner is an unregistered domain, an empty
resolver with a set owner is an unspecified resolver. -/
def Cns.getVerifiedData (env : CnsEnv) (domain : String) (keys : List String) :
    Except ResolutionErrorCode VerifiedData :=
  let tokenId := env.namehash domain
  let data := Cns.get env tokenId keys
  if isNullAddress data.resolver then
    if isNullAddress data.owner then .error .UnregisteredDomain
    else .error .UnspecifiedResolver
  else
    .ok { owner := data.owner.getD ""
          resolver := data.resolver.getD ""
          values := data.values.getD [] }

/-- Cns.owner (src/src/Cns.ts lines 52 to 54). -/
def Cns.owner (env : CnsEnv) (domain : String) :
    Except ResolutionErrorCode String :=
  (Cns.getVerifiedData env domain []).map VerifiedData.owner

/-- Cns.resolver (src/src/Cns.ts lines 48 to 50). -/
def Cns.resolver (env : CnsEnv) (domain : String) :
    Except ResolutionErrorCode String :=
  (Cns.getVerifiedData env domain []).map VerifiedData.resolver

/-- Cns.records (src/src/Cns.ts lines 99 to 102). -/
def Cns.records (env : CnsEnv) (domain : String) (keys : List String) :
    Except ResolutionErrorCode Records :=
  (Cns.getVerifiedData env domain keys).map
    (fun data => constructRecords keys (.arr (data.values.map some)))

/-- Modelled from the spec: the StandardKeySet of utils/standardKeys,
which is not under src. A fixed enumerable list of canonical record
keys; the exact entries are immaterial to the claims, the list only has
to be duplicate free. -/
def standardKeysList : List String :=
  ["crypto.BTC.address", "crypto.ETH.address", "crypto.ZIL.address",
   "dns.ttl", "dns.A", "dns.AAAA",
   "dweb.ipfs.hash", "ipfs.html.value",
   "browser.redirect_url", "ipfs.redirect_domain.value",
   "whois.email.value", "gundb.username.value", "gundb.public_key.value",
   "social.twitter.username", "validation.social.twitter.username"]

/-- Modelled from the spec: isLegacyResolver of utils, which is not
under src. A resolver address is legacy when it appears in the
configured legacy-resolver list for the chain. -/
def isLegacyResolver (env : CnsEnv) (resolverAddress : String) : Bool :=
  env.legacyResolvers.contains resolverAddress

/-- Modelled from the spec: the fixed historical starting block used by
getStartingBlock when no records-reset log exists. -/
def cnsDefaultStartingBlock : Nat := 9080000

/-- Modelled from the spec: getStartingBlock of utils, which is not
under src. The block of the most recent records-reset log for the
token, or the fixed historical starting block when there is none. -/
def getStartingBlock (env : CnsEnv) (tokenId : String) : Nat :=
  match (env.resetBlocks tokenId).max? with
  | some b => b
  | none => cnsDefaultStartingBlock

/-- resolverContract.fetchLogs of the NewKey event for the token from a
starting block: the (blockNumber, topics[2]) pairs at or after it. -/
def fetchNewKeyLogs (env : CnsEnv) (tokenId : String) (fromBlock : Nat) :
    List (Nat × String) :=
  (env.newKeyLogs tokenId).filter (fun l => fromBlock ≤ l.1)

/-- Cns.getMany (src/src/Cns.ts lines 145 to 148). -/
def Cns.getMany (env : CnsEnv) (tokenId : String) (keys : List String) :
    List String :=
  ((Cns.get env tokenId keys).values).getD []

/-- Cns.getManyByHash (src/src/Cns.ts lines 150 to 152): the ProxyReader
returns, for each key hash, the key preimage and its current value. -/
def Cns.getManyByHash (env : CnsEnv) (tokenId : String)
    (hashes : List String) : List String × List String :=
  (hashes.map env.keyOfHash,
   hashes.map (fun h => env.recordValue tokenId (env.keyOfHash h)))

/-- Cns.getStandardRecords (src/src/Cns.ts lines 120 to 124). -/
def Cns.getStandardRecords (env : CnsEnv) (tokenId : String) : Records :=
  constructRecords standardKeysList
    (.arr ((Cns.getMany env tokenId standardKeysList).map some))

/-- Cns.getAllRecords (src/src/Cns.ts lines 126 to 143): scan NewKey
logs from the starting block; with no key topics fall back to the
standard records, otherwise batch-fetch by hash. -/
def Cns.getAllRecords (env : CnsEnv) (tokenId : String) : Records :=
  let startingBlock := getStartingBlock env tokenId
  let logs := fetchNewKeyLogs env tokenId startingBlock
  let keyTopics := logs.map Prod.snd
  if keyTopics.isEmpty then Cns.getStandardRecords env tokenId
  else
    let kv := Cns.getManyByHash env tokenId keyTopics
    constructRecords kv.1 (.arr (kv.2.map some))

/-- Cns.allRecords (src/src/Cns.ts lines 56 to 66): resolve the
resolver address, then use the standard key set for a legacy resolver
and the log scan otherwise. -/
def Cns.allRecords (env : CnsEnv) (domain : String) :
    Except ResolutionErrorCode Records :=
  let tokenId := env.namehash domain
  match Cns.resolver env domain with
  | .error e => .error e
  | .ok resolverAddress =>
      if isLegacyResolver env resolverAddress then
        .ok (Cns.getStandardRecords env tokenId)
      else
        .ok (Cns.getAllRecords env tokenId)

/-- Modelled from the spec: the two fixed twitter record keys of
utils/standardKeys, which is not under src. -/
def validationTwitterUsernameKey : String := "validation.social.twitter.username"

def twitterUsernameKey : String := "social.twitter.username"

/-- Cns.twitter (src/src/Cns.ts lines 68 to 97): fetch the validation
signature and the handle, ensure both are present, verify the
signature against the token id, the owner and the handle, and return
the handle. ensureRecordPresence, from the NamingService base class
absent from src, is modelled from the spec as a RecordNotFound throw on
an absent (empty) value. -/
def Cns.twitter (env : CnsEnv) (domain : String) :
    Except ResolutionErrorCode String :=
  let tokenId := env.namehash domain
  let recordList := [validationTwitterUsernameKey, twitterUsernameKey]
  match Cns.getVerifiedData env domain recordList with
  | .error e => .error e
  | .ok data =>
      let validationSignature := ((data.values.get? 0).getD "")
      let twitterHandle := ((data.values.get? 1).getD "")
      if validationSignature = "" then .error .RecordNotFound
      else if twitterHandle = "" then .error .RecordNotFound
      else if env.verifyTwitterSignature tokenId data.owner twitterHandle
          validationSignature then .ok twitterHandle
      else .error .InvalidTwitterVerification

/-- Modelled from the spec: whether a domain is owned (non-empty owner)
on one layer, the predicate of the multi-layer precedence rule. The
multi-layer wrapper itself is not under src; only the per-layer reader
(Cns) is. -/
def Uns.ownedOnLayer (env : CnsEnv) (domain : String) : Bool :=
  !(isNullAddress (env.ownerOf (env.namehash domain)))

/-- Modelled from the spec: the multi-layer read. If the domain is
owned on the scaling layer all reads reflect the scaling layer,
otherwise they fall back to the base layer, and a domain owned on
neither layer fails UnregisteredDomain. -/
def Uns.getVerifiedData (l2 l1 : CnsEnv) (domain : String)
    (keys : List String) : Except ResolutionErrorCode VerifiedData :=
  if Uns.ownedOnLayer l2 domain then Cns.getVerifiedData l2 domain keys
  else if Uns.ownedOnLayer l1 domain then Cns.getVerifiedData l1 domain keys
  else .error .UnregisteredDomain

/-- Modelled from the spec: the multi-layer owner read. -/
def Uns.owner (l2 l1 : CnsEnv) (domain : String) :
    Except ResolutionErrorCode String :=
  (Uns.getVerifiedData l2 l1 domain []).map VerifiedData.owner

/-- Modelled from the spec: the multi-layer resolver read. -/
def Uns.resolver (l2 l1 : CnsEnv) (domain : String) :
    Except ResolutionErrorCode String :=
  (Uns.getVerifiedData l2 l1 domain []).map VerifiedData.resolver

/-- Modelled from the spec: the multi-layer registryAddress read, the
registry address of the winning layer. -/
def Uns.registryAddress (l2 l1 : CnsEnv) (domain : String) :
    Except ResolutionErrorCode String :=
  if Uns.ownedOnLayer l2 domain then .ok l2.registryAddress
  else if Uns.ownedOnLayer l1 domain then .ok l1.registryAddress
  else .error .UnregisteredDomain

/-- Modelled from the spec: the multi-layer records read, a single
batched call against the winning layer. -/
def Uns.records (l2 l1 : CnsEnv) (domain : String) (keys : List String) :
    Except ResolutionErrorCode Records :=
  (Uns.getVerifiedData l2 l1 domain keys).map
    (fun data => constructRecords keys (.arr (data.values.map some)))

/-- The ZNS service state, with its external collaborators embedded as
chain-state functions: the family hashing algorithm (utils/namehash is
not under src), the registry records map from namehash to the
owner-resolver pair, the resolver contracts records field keyed by
checksum address, and the address codecs of utils/znsUtils (not under
src). -/
structure ZnsState where
  namehash : String → String
  registry : String → Option (String × String)
  resolverRecords : String → Records
  toBech32 : String → String
  toChecksum : String → String

/-- Zns.checkDomain (src/src/Cns.ts lines 462 to 469): dot-split the
domain, require a nonempty token list whose last token is zil and whose
tokens are all nonempty. -/
def Zns.checkDomain (domain : String) : Bool :=
  let tokens := splitDot domain
  !tokens.isEmpty && tokens.getLast? == some "zil"
    && tokens.all (fun v => v.length != 0)

/-- Zns.namehash (src/src/Cns.ts lines 277 to 284): UnsupportedDomain
on an invalid domain, otherwise the family hash. -/
def Zns.namehashE (st : ZnsState) (domain : String) :
    Except ResolutionErrorCode String :=
  if Zns.checkDomain domain then .ok (st.namehash domain)
  else .error .UnsupportedDomain

/-- Zns.getRecordsAddresses (src/src/Cns.ts lines 391 to 418): look the
namehash up in the registry records map; convert a raw-hex owner to the
bech32 form. The isSupportedDomain guard in the source compares an
unawaited promise and never fires; the namehash call raises
UnsupportedDomain for invalid domains. -/
def Zns.getRecordsAddresses (st : ZnsState) (domain : String) :
    Except ResolutionErrorCode (Option (String × String)) :=
  match Zns.namehashE st domain with
  | .error e => .error e
  | .ok h =>
      match st.registry h with
      | none => .ok none
      | some (ownerAddress, resolverAddress) =>
          .ok (some
            (if strStartsWith ownerAddress "0x" then st.toBech32 ownerAddress
             else ownerAddress,
             resolverAddress))

/-- Zns.owner (src/src/Cns.ts lines 242 to 257): UnregisteredDomain on
a missing registry record or an empty owner; the resolver is never
consulted. -/
def Zns.owner (st : ZnsState) (domain : String) :
    Except ResolutionErrorCode String :=
  match Zns.getRecordsAddresses st domain with
  | .error e => .error e
  | .ok none => .error .UnregisteredDomain
  | .ok (some (ownerAddress, _)) =>
      if ownerAddress = "" then .error .UnregisteredDomain
      else .ok ownerAddress

/-- Zns.resolver (src/src/Cns.ts lines 259 to 275): UnregisteredDomain
on a missing record or an empty owner, UnspecifiedResolver on a null
resolver address. -/
def Zns.resolver (st : ZnsState) (domain : String) :
    Except ResolutionErrorCode String :=
  match Zns.getRecordsAddresses st domain with
  | .error e => .error e
  | .ok none => .error .UnregisteredDomain
  | .ok (some (ownerAddress, resolverAddress)) =>
      if ownerAddress = "" then .error .UnregisteredDomain
      else if isNullAddress (some resolverAddress) then
        .error .UnspecifiedResolver
      else .ok resolverAddress

/-- Zns.getResolverRecords (src/src/Cns.ts lines 420 to 429): the full
records field of the resolver contract, empty for a null resolver. -/
def Zns.getResolverRecords (st : ZnsState) (resolverAddress : String) :
    Records :=
  if isNullAddress (some resolverAddress) then []
  else st.resolverRecords (st.toChecksum resolverAddress)

/-- Zns.allRecords (src/src/Cns.ts lines 311 to 314). -/
def Zns.allRecords (st : ZnsState) (domain : String) :
    Except ResolutionErrorCode Records :=
  match Zns.resolver st domain with
  | .error e => .error e
  | .ok resolverAddress => .ok (Zns.getResolverRecords st resolverAddress)

/-- Zns.records (src/src/Cns.ts lines 306 to 309): client-side
filtering of the full record map through constructRecords. -/
def Zns.records (st : ZnsState) (domain : String) (keys : List String) :
    Except ResolutionErrorCode Records :=
  match Zns.allRecords st domain with
  | .error e => .error e
  | .ok recordMap => .ok (constructRecords keys (.map recordMap))

/-- Zns.record (src/src/Cns.ts lines 294 to 304): a falsy (empty)
looked-up value raises RecordNotFound. -/
def Zns.record (st : ZnsState) (domain : String) (key : String) :
    Except ResolutionErrorCode String :=
  match Zns.records st domain [key] with
  | .error e => .error e
  | .ok recs =>
      let v := (objGet recs key).getD ""
      if v = "" then .error .RecordNotFound
      else .ok v

/-- The ZnsSource configuration object: the provider is kept only as a
presence flag, its shape being transport detail. -/
structure ZnsSource where
  network : Option String
  url : Option String
  hasProvider : Bool
  registryAddress : Option String

/-- Truthiness of an optional string under JavaScript coercion: missing
or empty is falsy. -/
def strFalsy : Option String → Bool
  | none => true
  | some s => s = ""

/-- Modelled from the spec: the preset network names accepted by the
ZnsSupportedNetwork guard of the types module, which is not under
src. -/
def znsPresetNetworks : List String := ["mainnet", "testnet", "localnet"]

/-- Zns.NetworkNameMap (src/src/Cns.ts lines 205 to 209). -/
def Zns.networkNameMap : String → Option Nat
  | "mainnet" => some 1
  | "testnet" => some 333
  | "localnet" => some 111
  | _ => none

/-- Zns.UrlMap (src/src/Cns.ts lines 199 to 203). -/
def Zns.urlMap (n : Nat) : Option String :=
  if n = 1 then some "https://api.zilliqa.com"
  else if n = 333 then some "https://dev-api.zilliqa.com"
  else if n = 111 then some "http://localhost:4201"
  else none

/-- Zns.RegistryMap (src/src/Cns.ts lines 211 to 214). -/
def Zns.registryMap (n : Nat) : Option String :=
  if n = 1 then some "zil1jcgu2wlx6xejqk9jw3aaankw6lsjzeunx2j0jz"
  else if n = 333 then some "zil1hyj6m5w4atcn7s806s69r0uh5g4t84e8gp6nps"
  else none

/-- Zns.checkCustomNetworkConfig (src/src/Cns.ts lines 498 to 517): a
custom network needs an explicit registry address and an explicit url
or provider. -/
def Zns.checkCustomNetworkConfig (source : ZnsSource) :
    Except ConfigurationErrorCode Unit :=
  if strFalsy source.registryAddress then .error .CustomNetworkConfigMissing
  else if strFalsy source.url && !source.hasProvider then
    .error .CustomNetworkConfigMissing
  else .ok ()

/-- Zns.checkNetworkConfig (src/src/Cns.ts lines 471 to 480). -/
def Zns.checkNetworkConfig (source : ZnsSource) :
    Except ConfigurationErrorCode Unit :=
  if strFalsy source.network then .error .UnsupportedNetwork
  else if znsPresetNetworks.contains ((source.network).getD "") then .ok ()
  else Zns.checkCustomNetworkConfig source

def hexDigitChar (c : Char) : Bool :=
  ('0' ≤ c && c ≤ '9') || ('a' ≤ c && c ≤ 'f') || ('A' ≤ c && c ≤ 'F')

def bech32Charset : List Char := "qpzry9x8gf2tvdw0s3jn54khce6mua7l".data

def bech32Char (c : Char) : Bool := bech32Charset.contains c

/-- The registry address validator regex of Zns.checkRegistryAddress
(src/src/Cns.ts lines 482 to 496): a 0x prefix with forty hex digits,
or a zil1 prefix with thirty-eight bech32 charset characters. -/
def matchesZilRegistryAddress (s : String) : Bool :=
  (strStartsWith s "0x" && s.data.length == 42
    && (s.data.drop 2).all hexDigitChar)
  || (strStartsWith s "zil1" && s.data.length == 42
    && (s.data.drop 4).all bech32Char)

/-- Zns.checkRegistryAddress: InvalidConfigurationField when the
address matches neither pattern. -/
def Zns.checkRegistryAddress (address : String) :
    Except ConfigurationErrorCode Unit :=
  if matchesZilRegistryAddress address then .ok ()
  else .error .InvalidConfigurationField

/-- The configuration the Zns constructor ends with. -/
structure ZnsConfig where
  network : Option Nat
  url : Option String
  registryAddr : String

/-- The Zns constructor (src/src/Cns.ts lines 222 to 240): run the
network checks, fill the url and the registry address from the preset
maps when absent, validate the registry address, and convert a raw-hex
registry address to the bech32 form. A missing effective registry
address fails the regex the way the undefined value does in the
source. No network call is made. -/
def Zns.construct (toBech32 : String → String) (source : ZnsSource) :
    Except ConfigurationErrorCode ZnsConfig :=
  match Zns.checkNetworkConfig source with
  | .error e => .error e
  | .ok _ =>
      let network := Zns.networkNameMap ((source.network).getD "")
      let url := if strFalsy source.url then network.bind Zns.urlMap
                 else source.url
      let registryAddr :=
        if strFalsy source.registryAddress then network.bind Zns.registryMap
        else source.registryAddress
      match registryAddr with
      | none => .error .InvalidConfigurationField
      | some addr =>
          match Zns.checkRegistryAddress addr with
          | .error e => .error e
          | .ok _ =>
              .ok { network := network
                    url := url
                    registryAddr :=
                      if strStartsWith addr "0x" then toBech32 addr else addr }

/-- The first index of the dot character in a character list, the
String.prototype.indexOf fragment isSupportedDomain needs. -/
def firstDotIdx : List Char → Option Nat
  | [] => none
  | c :: rest =>
      if c = '.' then some 0
      else (firstDotIdx rest).map (· + 1)

/-- Cns.isSupportedDomain (src/src/Cns.ts lines 39 to 46): the bare
crypto suffix, or a domain with a dot at a positive index, ending in
dot crypto with at least one character before, all labels nonempty. -/
def Cns.isSupportedDomain (domain : String) : Bool :=
  domain = "crypto" ||
    (((firstDotIdx domain.data).getD 0 > 0)
      && strEndsWith domain ".crypto" && domain.data.length ≥ 8
      && (splitDot domain).all (fun v => v.length != 0))

/-- Modelled from the spec: the namehash entry of the CNS service. The
EthereumNamingService base class holding it is not under src; per the
spec an unsupported domain raises UnsupportedDomain before hashing. -/
def Cns.namehashE (env : CnsEnv) (domain : String) :
    Except ResolutionErrorCode String :=
  if Cns.isSupportedDomain domain then .ok (env.namehash domain)
  else .error .UnsupportedDomain

/-- Modelled from the spec: the single-record read of the CNS service.
The NamingService base class holding record is not under src; per the
spec it reads records for the one key and raises RecordNotFound on an
absent (empty) value. -/
def Cns.record (env : CnsEnv) (domain : String) (key : String) :
    Except ResolutionErrorCode String :=
  match Cns.records env domain [key] with
  | .error e => .error e
  | .ok recs =>
      let v := (objGet recs key).getD ""
      if v = "" then .error .RecordNotFound
      else .ok v

/-- Resolution.record (src/unnamed/part_000 lines 334 to 338):
normalize, dispatch, delegate. -/
def Resolution.record (cns : CnsEnv) (zns : ZnsState) (domain : String)
    (key : String) : Except ResolutionErrorCode String :=
  let d := prepareDomain domain
  match Resolution.getNamingMethodOrThrow d with
  | .error e => .error e
  | .ok .cns => Cns.record cns d key
  | .ok .zns => Zns.record zns d key

/-- Resolution.records (src/unnamed/part_000 lines 345 to 349). -/
def Resolution.records (cns : CnsEnv) (zns : ZnsState) (domain : String)
    (keys : List String) : Except ResolutionErrorCode Records :=
  let d := prepareDomain domain
  match Resolution.getNamingMethodOrThrow d with
  | .error e => .error e
  | .ok .cns => Cns.records cns d keys
  | .ok .zns => Zns.records zns d keys

/-- Resolution.getPreferableNewRecord (src/unnamed/part_000 lines 515
to 528): batch-fetch the new and the old key; RecordNotFound when both
values are falsy, otherwise the new value when truthy, else the old. -/
def Resolution.getPreferableNewRecord (cns : CnsEnv) (zns : ZnsState)
    (domain : String) (newRecord : String) (oldRecord : String) :
    Except ResolutionErrorCode String :=
  match Resolution.records cns zns domain [newRecord, oldRecord] with
  | .error e => .error e
  | .ok recs =>
      let newVal := (objGet recs newRecord).getD ""
      let oldVal := (objGet recs oldRecord).getD ""
      if newVal = "" && oldVal = "" then .error .RecordNotFound
      else .ok (if newVal ≠ "" then newVal else oldVal)

/-- Resolution.ipfsHash (src/unnamed/part_000 lines 272 to 279). -/
def Resolution.ipfsHash (cns : CnsEnv) (zns : ZnsState) (domain : String) :
    Except ResolutionErrorCode String :=
  Resolution.getPreferableNewRecord cns zns (prepareDomain domain)
    "dweb.ipfs.hash" "ipfs.html.value"

/-- Resolution.httpUrl (src/unnamed/part_000 lines 285 to 292). -/
def Resolution.httpUrl (cns : CnsEnv) (zns : ZnsState) (domain : String) :
    Except ResolutionErrorCode String :=
  Resolution.getPreferableNewRecord cns zns (prepareDomain domain)
    "browser.redirect_url" "ipfs.redirect_domain.value"

/-- The namehash presentation options, NamehashOptions of publicTypes.
The source field named like the hex marker is rendered here as
prefixed. -/
inductive NamehashFormat where
  | hex
  | dec
deriving DecidableEq

structure NamehashOptions where
  format : NamehashFormat
  prefixed : Bool
deriving DecidableEq

/-- Modelled from the spec: NamehashOptionsDefault of publicTypes,
which is not under src: prefixed hex output. -/
def NamehashOptionsDefault : NamehashOptions :=
  { format := .hex, prefixed := true }

/-- Remove the first occurrence of the two-character 0x marker, the
hash.replace step of formatNamehash. -/
def stripFirst0x : List Char → List Char
  | '0' :: 'x' :: rest => rest
  | c :: rest => c :: stripFirst0x rest
  | [] => []

def hexDigitVal (c : Char) : Nat :=
  if '0' ≤ c && c ≤ '9' then c.toNat - 48
  else if 'a' ≤ c && c ≤ 'f' then c.toNat - 87
  else if 'A' ≤ c && c ≤ 'F' then c.toNat - 55
  else 0

/-- Parse a hex digit string as a number, the BN(hash, hex) step. -/
def hexToNat (s : String) : Nat :=
  s.data.foldl (fun acc c => 16 * acc + hexDigitVal c) 0

/-- Resolution.formatNamehash (src/unnamed/part_000 lines 401 to 408):
strip the 0x marker, then either render the parsed number in base ten,
or re-attach the marker according to the option. -/
def Resolution.formatNamehash (hash : String) (options : NamehashOptions) :
    String :=
  let h := String.mk (stripFirst0x hash.data)
  match options.format with
  | .dec => toString (hexToNat h)
  | .hex => if options.prefixed then "0x" ++ h else h

/-- The unformatted hash Resolution.namehash obtains from the owning
service before formatting (src/unnamed/part_000 lines 368 to 377). -/
def Resolution.rawNamehash (cns : CnsEnv) (zns : ZnsState)
    (domain : String) : Except ResolutionErrorCode String :=
  let d := prepareDomain domain
  match Resolution.getNamingMethodOrThrow d with
  | .error e => .error e
  | .ok .cns => Cns.namehashE cns d
  | .ok .zns => Zns.namehashE zns d

/-- Resolution.namehash: the owning service hash, presentation
formatted. -/
def Resolution.namehash (cns : CnsEnv) (zns : ZnsState) (domain : String)
    (options : NamehashOptions) : Except ResolutionErrorCode String :=
  (Resolution.rawNamehash cns zns domain).map
    (fun h => Resolution.formatNamehash h options)

/-- C3 counterexample: with a duplicated requested key the result of
constructRecords has fewer entries than keys.length, refuting the size
clause of the claim at the concrete input keys = [a, a]. -/
theorem c3_constructRecords_counterexample :
    (constructRecords ["a", "a"] ValuesArg.undef).length ≠
      (["a", "a"] : List String).length := by
  decide

/-- C3 amended: constructRecords returns a map whose key set is exactly
the set of requested keys (no requested key dropped), in which each key
missing or undefined in the values argument is mapped to the empty
string; its size equals the number of distinct requested keys, hence
equals keys.length whenever the requested keys are duplicate free. -/
theorem c3_constructRecords_amended (keys : List String) (values : ValuesArg) :
    (∀ k, k ∈ objKeys (constructRecords keys values) ↔ k ∈ keys)
    ∧ (values = ValuesArg.undef →
        ∀ k ∈ keys, objGet (constructRecords keys values) k = some "")
    ∧ (∀ m, values = ValuesArg.map m →
        ∀ k ∈ keys, objGet m k = none →
          objGet (constructRecords keys values) k = some "")
    ∧ (∀ vs, values = ValuesArg.arr vs → vs.all (· = none) →
        ∀ k ∈ keys, objGet (constructRecords keys values) k = some "")
    ∧ (constructRecords keys values).length = keys.dedup.length
    ∧ (keys.Nodup → (constructRecords keys values).length = keys.length) := by
  refine ⟨fun k => mem_objKeys_constructRecords keys values k, ?_, ?_, ?_,
    length_constructRecords keys values, ?_⟩
  · rintro rfl k hk
    rw [objGet_constructRecords_key keys ValuesArg.undef k ""
      (fun j _ => rfl)]
    simp [hk]
  · rintro m rfl k hk hm
    rw [objGet_constructRecords_key keys (ValuesArg.map m) k ""
      (fun j _ => by simp [valueFor, hm])]
    simp [hk]
  · rintro vs rfl hvs k hk
    rw [objGet_constructRecords_key keys (ValuesArg.arr vs) k ""
      (fun j _ => ?_)]
    · simp [hk]
    · simp only [valueFor]
      cases hj : vs.get? j with
      | none => simp
      | some v =>
          have hv : v = none := by
            have hmem : v ∈ vs := List.get?_mem hj
            simpa using List.all_eq_true.1 hvs v hmem
          simp [hv]
  · intro hnd
    rw [length_constructRecords keys values, List.dedup_eq_self.2 hnd]

/-- C3 amended witness: duplicate-free keys give a map of exactly
keys.length entries. -/
theorem c3_constructRecords_amended_witness :
    (["a", "b"] : List String).Nodup
    ∧ (constructRecords ["a", "b"] ValuesArg.undef).length =
        (["a", "b"] : List String).length :=
  ⟨by decide,
   (c3_constructRecords_amended ["a", "b"] ValuesArg.undef).2.2.2.2.2
     (by decide)⟩

/-- C5: evaluation at the failing input foo.bar. The suffix table maps
the unmatched suffix to the primary multi-layer family name UNS, but
the facade service map registers only the CNS and the ZNS instances, so
dispatch throws UnsupportedDomain instead of resolving the domain
through the primary family as the claim (and the repository README)
describes. -/
theorem c5_dispatch_failing_input :
    findNamingServiceName "foo.bar" = some NamingServiceName.UNS
    ∧ Resolution.getNamingMethodOrThrow "foo.bar" =
        .error ResolutionErrorCode.UnsupportedDomain
    ∧ (∀ cns st key, Resolution.record cns st "foo.bar" key =
        .error ResolutionErrorCode.UnsupportedDomain) := by
  refine ⟨by decide, by rfl, ?_⟩
  intro cns st key
  rfl

/-- C7: namehash presentation. Over any hash of the prefixed-hex shape
the services produce, the hex format keeps the hex digits of the
default output and only toggles the marker, the decimal format renders
the number the default hex digits denote in base ten, and the facade
namehash applies formatNamehash to a raw hash that does not depend
on the options. -/
theorem c7_namehash_presentation :
    (∀ digits : String, ∀ options : NamehashOptions,
      Resolution.formatNamehash ("0x" ++ digits) options =
        match options.format, options.prefixed with
        | .hex, true => "0x" ++ digits
        | .hex, false => digits
        | .dec, _ => toString (hexToNat digits))
    ∧ (∀ digits : String,
        Resolution.formatNamehash ("0x" ++ digits) NamehashOptionsDefault =
          "0x" ++ digits)
    ∧ (∀ cns zns domain options,
        Resolution.namehash cns zns domain options =
          (Resolution.rawNamehash cns zns domain).map
            (fun h => Resolution.formatNamehash h options)) := by
  have hstrip : ∀ digits : String,
      String.mk (stripFirst0x ('0' :: 'x' :: digits.data)) = digits := by
    intro digits
    rfl
  refine ⟨?_, ?_, fun cns zns domain options => rfl⟩
  · intro digits options
    obtain ⟨fmt, pfx⟩ := options
    cases fmt with
    | dec => simp [Resolution.formatNamehash, String.data_append, hstrip]
    | hex =>
        cases pfx with
        | true => simp [Resolution.formatNamehash, String.data_append, hstrip]
        | false => simp [Resolution.formatNamehash, String.data_append, hstrip]
  · intro digits
    simp [Resolution.formatNamehash, NamehashOptionsDefault,
      String.data_append, hstrip]

/-- A concrete scaling-layer state with an owned, resolved domain. -/
def cnsEnvA : CnsEnv :=
  { namehash := fun _ => "0xaaa"
    registryAddress := "0xregistryA"
    ownerOf := fun _ => some "0xownerA"
    resolverOf := fun _ => some "0xresolverA"
    recordValue := fun _ _ => ""
    keyOfHash := fun h => h
    resetBlocks := fun _ => []
    newKeyLogs := fun _ => []
    legacyResolvers := []
    verifyTwitterSignature := fun _ _ _ _ => true }

/-- A concrete base-layer state with a distinct owner. -/
def cnsEnvB : CnsEnv :=
  { namehash := fun _ => "0xbbb"
    registryAddress := "0xregistryB"
    ownerOf := fun _ => some "0xownerB"
    resolverOf := fun _ => some "0xresolverB"
    recordValue := fun _ _ => ""
    keyOfHash := fun h => h
    resetBlocks := fun _ => []
    newKeyLogs := fun _ => []
    legacyResolvers := []
    verifyTwitterSignature := fun _ _ _ _ => true }

/-- C1: multi-layer precedence. When the domain is owned on the scaling
layer, owner, resolver, registryAddress and records all equal the
scaling-layer reads and the outcome is independent of any base-layer
state; when it is not owned on the scaling layer but owned on the base
layer, they equal the base-layer reads; and when it is owned on neither
layer every one of them fails UnregisteredDomain. -/
theorem c1_layered_precedence (l2 l1 l1b : CnsEnv) (domain : String)
    (keys : List String) :
    (Uns.ownedOnLayer l2 domain = true →
      Uns.owner l2 l1 domain = Cns.owner l2 domain
      ∧ Uns.resolver l2 l1 domain = Cns.resolver l2 domain
      ∧ Uns.registryAddress l2 l1 domain = .ok l2.registryAddress
      ∧ Uns.records l2 l1 domain keys = Cns.records l2 domain keys
      ∧ Uns.getVerifiedData l2 l1 domain keys =
          Uns.getVerifiedData l2 l1b domain keys)
    ∧ (Uns.ownedOnLayer l2 domain = false →
        Uns.ownedOnLayer l1 domain = true →
        Uns.owner l2 l1 domain = Cns.owner l1 domain
        ∧ Uns.resolver l2 l1 domain = Cns.resolver l1 domain
        ∧ Uns.registryAddress l2 l1 domain = .ok l1.registryAddress
        ∧ Uns.records l2 l1 domain keys = Cns.records l1 domain keys)
    ∧ (Uns.ownedOnLayer l2 domain = false →
        Uns.ownedOnLayer l1 domain = false →
        Uns.owner l2 l1 domain = .error .UnregisteredDomain
        ∧ Uns.resolver l2 l1 domain = .error .UnregisteredDomain
        ∧ Uns.registryAddress l2 l1 domain = .error .UnregisteredDomain
        ∧ Uns.records l2 l1 domain keys = .error .UnregisteredDomain) := by
  refine ⟨?_, ?_, ?_⟩
  · intro h2
    simp [Uns.owner, Uns.resolver, Uns.registryAddress, Uns.records,
      Uns.getVerifiedData, Cns.owner, Cns.resolver, Cns.records, h2]
  · intro h2 h1
    simp [Uns.owner, Uns.resolver, Uns.registryAddress, Uns.records,
      Uns.getVerifiedData, Cns.owner, Cns.resolver, Cns.records, h2, h1]
  · intro h2 h1
    simp [Uns.owner, Uns.resolver, Uns.registryAddress, Uns.records,
      Uns.getVerifiedData, Cns.owner, Cns.resolver, Cns.records, h2, h1,
      Except.map]

/-- C1 witness: on a concrete pair of layer states with the domain
owned on the scaling layer, the layered owner read equals the
scaling-layer owner read. -/
theorem c1_layered_precedence_witness :
    Uns.ownedOnLayer cnsEnvA "brad.crypto" = true
    ∧ Uns.owner cnsEnvA cnsEnvB "brad.crypto" =
        Cns.owner cnsEnvA "brad.crypto" :=
  ⟨by decide,
   ((c1_layered_precedence cnsEnvA cnsEnvB cnsEnvB "brad.crypto" []).1
      (by decide)).1⟩

/-- A concrete ZNS chain state whose registered domain has an owner but
an empty resolver address. -/
def znsStateOwnerOnly : ZnsState :=
  { namehash := fun _ => "0xzh"
    registry := fun h => if h = "0xzh" then some ("zil1owner", "") else none
    resolverRecords := fun _ => []
    toBech32 := fun s => s
    toChecksum := fun s => s }

/-- C2 counterexample: on a concrete chain state with a non-empty owner
and an empty resolver address, the single-chain owner operation
succeeds with the owner value; it does not fail UnspecifiedResolver as
the claim states for the owner operation. -/
theorem c2_owner_counterexample :
    Zns.owner znsStateOwnerOnly "brad.zil" = .ok "zil1owner"
    ∧ Zns.owner znsStateOwnerOnly "brad.zil" ≠
        .error ResolutionErrorCode.UnspecifiedResolver := by
  constructor
  · rfl
  · intro h
    exact Except.noConfusion h

/-- C2 amended: with an empty resolver address, the CNS reader fails
every read with UnregisteredDomain when the owner is also empty and
with UnspecifiedResolver when the owner is set; the ZNS service behaves
the same for resolver, record and records, but its owner operation
ignores the resolver and succeeds whenever the owner is non-empty. A
domain with no registry record or an empty owner always fails
UnregisteredDomain, never with an empty success value. -/
theorem c2_resolver_empty_errors (env : CnsEnv) (st : ZnsState)
    (domain zdomain : String) (keys : List String) (key : String)
    (o r : String) :
    (isNullAddress (env.resolverOf (env.namehash domain)) = true →
      (isNullAddress (env.ownerOf (env.namehash domain)) = true →
        Cns.owner env domain = .error .UnregisteredDomain
        ∧ Cns.resolver env domain = .error .UnregisteredDomain
        ∧ Cns.records env domain keys = .error .UnregisteredDomain)
      ∧ (isNullAddress (env.ownerOf (env.namehash domain)) = false →
        Cns.owner env domain = .error .UnspecifiedResolver
        ∧ Cns.resolver env domain = .error .UnspecifiedResolver
        ∧ Cns.records env domain keys = .error .UnspecifiedResolver))
    ∧ (Zns.checkDomain zdomain = true →
        st.registry (st.namehash zdomain) = some (o, r) →
        isNullAddress (some r) = true →
        ∀ oc, oc = (if strStartsWith o "0x" then st.toBech32 o else o) →
        (oc = "" →
          Zns.owner st zdomain = .error .UnregisteredDomain
          ∧ Zns.resolver st zdomain = .error .UnregisteredDomain
          ∧ Zns.record st zdomain key = .error .UnregisteredDomain
          ∧ Zns.records st zdomain keys = .error .UnregisteredDomain)
        ∧ (oc ≠ "" →
          Zns.owner st zdomain = .ok oc
          ∧ Zns.resolver st zdomain = .error .UnspecifiedResolver
          ∧ Zns.record st zdomain key = .error .UnspecifiedResolver
          ∧ Zns.records st zdomain keys = .error .UnspecifiedResolver))
    ∧ (Zns.checkDomain zdomain = true →
        st.registry (st.namehash zdomain) = none →
        Zns.owner st zdomain = .error .UnregisteredDomain
        ∧ Zns.resolver st zdomain = .error .UnregisteredDomain
        ∧ Zns.record st zdomain key = .error .UnregisteredDomain
        ∧ Zns.records st zdomain keys = .error .UnregisteredDomain) := by
  refine ⟨?_, ?_, ?_⟩
  · intro hres
    constructor
    · intro hown
      simp [Cns.owner, Cns.resolver, Cns.records, Cns.getVerifiedData,
        Cns.get, Except.map, hres, hown]
    · intro hown
      simp [Cns.owner, Cns.resolver, Cns.records, Cns.getVerifiedData,
        Cns.get, Except.map, hres, hown]
  · intro hdom hreg hnull oc hoc
    constructor
    · intro hoe
      rw [hoc] at hoe
      simp [Zns.owner, Zns.resolver, Zns.record, Zns.records,
        Zns.allRecords, Zns.getRecordsAddresses, Zns.namehashE, hdom,
        hreg, hnull, hoe]
    · intro hoe
      rw [hoc] at hoe
      simp [Zns.owner, Zns.resolver, Zns.record, Zns.records,
        Zns.allRecords, Zns.getRecordsAddresses, Zns.namehashE, hdom,
        hreg, hnull, hoe, hoc]
  · intro hdom hreg
    simp [Zns.owner, Zns.resolver, Zns.record, Zns.records,
      Zns.allRecords, Zns.getRecordsAddresses, Zns.namehashE, hdom, hreg]

/-- A concrete CNS layer state with neither owner nor resolver set. -/
def cnsEnvNull : CnsEnv :=
  { namehash := fun _ => "0xccc"
    registryAddress := "0xregistryC"
    ownerOf := fun _ => none
    resolverOf := fun _ => none
    recordValue := fun _ _ => ""
    keyOfHash := fun h => h
    resetBlocks := fun _ => []
    newKeyLogs := fun _ => []
    legacyResolvers := []
    verifyTwitterSignature := fun _ _ _ _ => true }

/-- C2 amended witness: a concrete unregistered domain fails the owner
read with UnregisteredDomain. -/
theorem c2_resolver_empty_errors_witness :
    isNullAddress (cnsEnvNull.resolverOf (cnsEnvNull.namehash "brad.crypto")) = true
    ∧ Cns.owner cnsEnvNull "brad.crypto" = .error .UnregisteredDomain :=
  ⟨by decide,
   (((c2_resolver_empty_errors cnsEnvNull znsStateOwnerOnly "brad.crypto"
        "brad.zil" [] "k" "zil1owner" "").1 (by decide)).1 (by decide)).1⟩

/-- C4: allRecords. With a legacy resolver the result is the standard
key set in one batched call; otherwise the NewKey logs after the
starting block determined from the most recent reset log (or the fixed
historical block) are scanned: with no key topic the result falls back
to the standard key set, and with key topics the result is the map
holding exactly the distinct key identifiers found, each bound to its
current on-chain value fetched by hash in one batched call. -/
theorem c4_allRecords (env : CnsEnv) (domain : String)
    (resolverAddress : String)
    (hres : Cns.resolver env domain = .ok resolverAddress) :
    (isLegacyResolver env resolverAddress = true →
      Cns.allRecords env domain =
        .ok (Cns.getStandardRecords env (env.namehash domain))
      ∧ (∀ k, k ∈ objKeys (Cns.getStandardRecords env (env.namehash domain)) ↔
          k ∈ standardKeysList))
    ∧ (isLegacyResolver env resolverAddress = false →
        (fetchNewKeyLogs env (env.namehash domain)
            (getStartingBlock env (env.namehash domain))).map Prod.snd = [] →
        Cns.allRecords env domain =
          .ok (Cns.getStandardRecords env (env.namehash domain)))
    ∧ (∀ hashes,
        hashes = (fetchNewKeyLogs env (env.namehash domain)
            (getStartingBlock env (env.namehash domain))).map Prod.snd →
        isLegacyResolver env resolverAddress = false →
        hashes ≠ [] →
        Cns.allRecords env domain =
          .ok (Cns.getAllRecords env (env.namehash domain))
        ∧ (∀ k, k ∈ objKeys (Cns.getAllRecords env (env.namehash domain)) ↔
            ∃ h2 ∈ hashes, env.keyOfHash h2 = k)
        ∧ (objKeys (Cns.getAllRecords env (env.namehash domain))).Nodup
        ∧ (∀ k, (∃ h2 ∈ hashes, env.keyOfHash h2 = k) →
            objGet (Cns.getAllRecords env (env.namehash domain)) k =
              some (env.recordValue (env.namehash domain) k))) := by
  refine ⟨?_, ?_, ?_⟩
  · intro hleg
    constructor
    · simp [Cns.allRecords, hres, hleg]
    · intro k
      exact mem_objKeys_constructRecords standardKeysList _ k
  · intro hleg hempty
    simp [Cns.allRecords, hres, hleg, Cns.getAllRecords, hempty]
  · intro hashes hh hleg hne
    have hredo : Cns.getAllRecords env (env.namehash domain) =
        constructRecords (hashes.map env.keyOfHash)
          (.arr ((hashes.map (fun h2 =>
            env.recordValue (env.namehash domain) (env.keyOfHash h2))).map
              some)) := by
      rw [Cns.getAllRecords]
      rw [← hh]
      have hie : hashes.isEmpty = false := by
        cases hcase : hashes.isEmpty
        · rfl
        · exact absurd (List.isEmpty_iff.1 hcase) hne
      simp [hie, Cns.getManyByHash]
    refine ⟨by simp [Cns.allRecords, hres, hleg], ?_, ?_, ?_⟩
    · intro k
      rw [hredo, mem_objKeys_constructRecords]
      simp [List.mem_map]
    · rw [hredo]
      exact nodup_objKeys_constructRecords _ _
    · rintro k ⟨h2, hmem, hkey⟩
      rw [hredo]
      rw [objGet_constructRecords_key (hashes.map env.keyOfHash) _ k
        (env.recordValue (env.namehash domain) k) ?_]
      · have : k ∈ hashes.map env.keyOfHash := by
          rw [List.mem_map]
          exact ⟨h2, hmem, hkey⟩
        simp [this]
      · intro j hj
        rw [List.get?_map] at hj
        obtain ⟨h3, hh3, hk3⟩ := Option.map_eq_some'.1 hj
        simp only [valueFor, List.get?_map, hh3, Option.map_some']
        simp [hk3]

/-- A concrete CNS layer state whose resolver is in the configured
legacy-resolver list. -/
def cnsEnvLegacy : CnsEnv :=
  { namehash := fun _ => "0xddd"
    registryAddress := "0xregistryD"
    ownerOf := fun _ => some "0xownerD"
    resolverOf := fun _ => some "0xlegacyResolver"
    recordValue := fun _ _ => ""
    keyOfHash := fun h => h
    resetBlocks := fun _ => []
    newKeyLogs := fun _ => []
    legacyResolvers := ["0xlegacyResolver"]
    verifyTwitterSignature := fun _ _ _ _ => true }

/-- C4 witness: on a concrete state with a legacy resolver, allRecords
returns the standard records in one call. -/
theorem c4_allRecords_witness :
    Cns.resolver cnsEnvLegacy "brad.crypto" = .ok "0xlegacyResolver"
    ∧ Cns.allRecords cnsEnvLegacy "brad.crypto" =
        .ok (Cns.getStandardRecords cnsEnvLegacy
          (cnsEnvLegacy.namehash "brad.crypto")) :=
  ⟨by rfl,
   ((c4_allRecords cnsEnvLegacy "brad.crypto" "0xlegacyResolver"
      (by rfl)).1 (by decide)).1⟩

/-- C6: ipfsHash and httpUrl batch-fetch the new and the deprecated
key through one records call against the dispatched service and prefer
the new value: the new value when non-empty, else the old value when
non-empty, else RecordNotFound. ipfsHash pairs dweb.ipfs.hash with
ipfs.html.value and httpUrl pairs browser.redirect_url with
ipfs.redirect_domain.value. -/
theorem c6_prefer_new_record (cns : CnsEnv) (st : ZnsState) (domain : String)
    (hprep : prepareDomain domain = domain)
    (hzns : Resolution.getNamingMethodOrThrow domain = .ok .zns)
    (recordMap : Records)
    (hall : Zns.allRecords st domain = .ok recordMap) :
    Resolution.ipfsHash cns st domain =
      Resolution.getPreferableNewRecord cns st domain
        "dweb.ipfs.hash" "ipfs.html.value"
    ∧ Resolution.httpUrl cns st domain =
      Resolution.getPreferableNewRecord cns st domain
        "browser.redirect_url" "ipfs.redirect_domain.value"
    ∧ (∀ newRecord oldRecord,
        ((objGet recordMap newRecord).getD "" ≠ "" →
          Resolution.getPreferableNewRecord cns st domain newRecord oldRecord =
            .ok ((objGet recordMap newRecord).getD ""))
        ∧ ((objGet recordMap newRecord).getD "" = "" →
            (objGet recordMap oldRecord).getD "" ≠ "" →
            Resolution.getPreferableNewRecord cns st domain newRecord oldRecord =
              .ok ((objGet recordMap oldRecord).getD ""))
        ∧ ((objGet recordMap newRecord).getD "" = "" →
            (objGet recordMap oldRecord).getD "" = "" →
            Resolution.getPreferableNewRecord cns st domain newRecord oldRecord =
              .error .RecordNotFound)) := by
  refine ⟨by rw [Resolution.ipfsHash, hprep], by rw [Resolution.httpUrl, hprep], ?_⟩
  intro newRecord oldRecord
  have hrecs : Resolution.records cns st domain [newRecord, oldRecord] =
      .ok (constructRecords [newRecord, oldRecord] (.map recordMap)) := by
    simp only [Resolution.records, hprep, hzns, Zns.records, hall]
  have hn : objGet (constructRecords [newRecord, oldRecord] (.map recordMap))
      newRecord = some ((objGet recordMap newRecord).getD "") := by
    rw [objGet_constructRecords_key [newRecord, oldRecord]
      (ValuesArg.map recordMap) newRecord
      ((objGet recordMap newRecord).getD "") (fun j _ => rfl)]
    simp
  have ho : objGet (constructRecords [newRecord, oldRecord] (.map recordMap))
      oldRecord = some ((objGet recordMap oldRecord).getD "") := by
    rw [objGet_constructRecords_key [newRecord, oldRecord]
      (ValuesArg.map recordMap) oldRecord
      ((objGet recordMap oldRecord).getD "") (fun j _ => rfl)]
    simp
  refine ⟨?_, ?_, ?_⟩
  · intro hne
    simp [Resolution.getPreferableNewRecord, hrecs, hn, ho, hne]
  · intro hnew hold
    simp [Resolution.getPreferableNewRecord, hrecs, hn, ho, hnew, hold]
  · intro hnew hold
    simp [Resolution.getPreferableNewRecord, hrecs, hn, ho, hnew, hold]

/-- A concrete ZNS chain state with a resolved domain carrying both the
new and the deprecated site keys, and one empty-valued key. -/
def znsStateFull : ZnsState :=
  { namehash := fun _ => "0xzf"
    registry := fun h =>
      if h = "0xzf" then some ("zil1owner2", "zil1resolver") else none
    resolverRecords := fun a =>
      if a = "zil1resolver" then
        [("dweb.ipfs.hash", "QmNewHash"), ("ipfs.html.value", "QmOldHash"),
         ("empty.key", "")]
      else []
    toBech32 := fun s => s
    toChecksum := fun s => s }

/-- C6 witness: with both keys present, ipfsHash returns the
dweb.ipfs.hash value. -/
theorem c6_prefer_new_record_witness :
    (objGet (znsStateFull.resolverRecords
        (znsStateFull.toChecksum "zil1resolver")) "dweb.ipfs.hash").getD ""
      ≠ ""
    ∧ Resolution.ipfsHash cnsEnvA znsStateFull "brad.zil" =
        .ok "QmNewHash" := by
  refine ⟨by decide, ?_⟩
  have h := c6_prefer_new_record cnsEnvA znsStateFull "brad.zil" (by decide)
    (by rfl)
    (znsStateFull.resolverRecords (znsStateFull.toChecksum "zil1resolver"))
    (by rfl)
  rw [h.1]
  exact (h.2.2 "dweb.ipfs.hash" "ipfs.html.value").1 (by decide)

/-- C8: twitter fetches the fixed validation-signature key and the
fixed handle key, fails RecordNotFound when either value is absent,
verifies the signature against the token id, the owner and the handle
through the external verifier, fails InvalidTwitterVerification when
the verification fails, and returns the handle otherwise. -/
theorem c8_twitter_verification (env : CnsEnv) (domain : String)
    (hres : isNullAddress (env.resolverOf (env.namehash domain)) = false) :
    ((env.recordValue (env.namehash domain) validationTwitterUsernameKey = ""
        ∨ env.recordValue (env.namehash domain) twitterUsernameKey = "") →
      Cns.twitter env domain = .error .RecordNotFound)
    ∧ (env.recordValue (env.namehash domain) validationTwitterUsernameKey ≠ "" →
        env.recordValue (env.namehash domain) twitterUsernameKey ≠ "" →
        env.verifyTwitterSignature (env.namehash domain)
          ((env.ownerOf (env.namehash domain)).getD "")
          (env.recordValue (env.namehash domain) twitterUsernameKey)
          (env.recordValue (env.namehash domain) validationTwitterUsernameKey)
          = true →
        Cns.twitter env domain =
          .ok (env.recordValue (env.namehash domain) twitterUsernameKey))
    ∧ (env.recordValue (env.namehash domain) validationTwitterUsernameKey ≠ "" →
        env.recordValue (env.namehash domain) twitterUsernameKey ≠ "" →
        env.verifyTwitterSignature (env.namehash domain)
          ((env.ownerOf (env.namehash domain)).getD "")
          (env.recordValue (env.namehash domain) twitterUsernameKey)
          (env.recordValue (env.namehash domain) validationTwitterUsernameKey)
          = false →
        Cns.twitter env domain = .error .InvalidTwitterVerification) := by
  refine ⟨?_, ?_, ?_⟩
  · intro habs
    by_cases hsig :
        env.recordValue (env.namehash domain) validationTwitterUsernameKey = ""
    · simp [Cns.twitter, Cns.getVerifiedData, Cns.get, hres, hsig]
    · have hhandle :
          env.recordValue (env.namehash domain) twitterUsernameKey = "" := by
        rcases habs with h1 | h2
        · exact absurd h1 hsig
        · exact h2
      simp [Cns.twitter, Cns.getVerifiedData, Cns.get, hres, hsig, hhandle]
  · intro hsig hhandle hver
    simp [Cns.twitter, Cns.getVerifiedData, Cns.get, hres, hsig, hhandle, hver]
  · intro hsig hhandle hver
    simp [Cns.twitter, Cns.getVerifiedData, Cns.get, hres, hsig, hhandle, hver]

/-- A concrete CNS layer state with both twitter records set and a
verifier accepting the signature. -/
def cnsEnvTwitter : CnsEnv :=
  { namehash := fun _ => "0xeee"
    registryAddress := "0xregistryE"
    ownerOf := fun _ => some "0xownerE"
    resolverOf := fun _ => some "0xresolverE"
    recordValue := fun _ k =>
      if k = validationTwitterUsernameKey then "sigE"
      else if k = twitterUsernameKey then "handleE" else ""
    keyOfHash := fun h => h
    resetBlocks := fun _ => []
    newKeyLogs := fun _ => []
    legacyResolvers := []
    verifyTwitterSignature := fun _ _ _ _ => true }

/-- C8 witness: on the concrete state the handle is returned. -/
theorem c8_twitter_verification_witness :
    isNullAddress (cnsEnvTwitter.resolverOf
      (cnsEnvTwitter.namehash "brad.crypto")) = false
    ∧ Cns.twitter cnsEnvTwitter "brad.crypto" = .ok "handleE" := by
  refine ⟨by decide, ?_⟩
  have h := (c8_twitter_verification cnsEnvTwitter "brad.crypto"
    (by decide)).2.1 (by decide) (by decide) (by decide)
  exact h

/-- C9: ZNS construction validation, performed before any network
call. A network name outside the preset set needs an explicit registry
address and an explicit url or provider, else construction fails
CustomNetworkConfigMissing; an explicit registry address matching
neither the raw-hex-40 pattern nor the chain bech32 pattern fails
InvalidConfigurationField, on preset networks too; and a custom
configuration passing all checks constructs successfully. -/
theorem c9_zns_construction (source : ZnsSource) (tb : String → String) :
    (∀ n, source.network = some n → n ≠ "" →
      n ∉ znsPresetNetworks →
      (strFalsy source.registryAddress = true →
        Zns.construct tb source = .error .CustomNetworkConfigMissing)
      ∧ (strFalsy source.registryAddress = false →
          strFalsy source.url = true → source.hasProvider = false →
          Zns.construct tb source = .error .CustomNetworkConfigMissing)
      ∧ (∀ addr, source.registryAddress = some addr → addr ≠ "" →
          (strFalsy source.url = false ∨ source.hasProvider = true) →
          matchesZilRegistryAddress addr = false →
          Zns.construct tb source = .error .InvalidConfigurationField)
      ∧ (∀ addr, source.registryAddress = some addr → addr ≠ "" →
          (strFalsy source.url = false ∨ source.hasProvider = true) →
          matchesZilRegistryAddress addr = true →
          ∃ cfg, Zns.construct tb source = .ok cfg))
    ∧ (∀ n addr, source.network = some n →
        n ∈ znsPresetNetworks →
        source.registryAddress = some addr → addr ≠ "" →
        matchesZilRegistryAddress addr = false →
        Zns.construct tb source = .error .InvalidConfigurationField) := by
  constructor
  · intro n hn hne hnp
    have hfnn : strFalsy (some n) = false := by
      simp [strFalsy, hne]
    refine ⟨?_, ?_, ?_, ?_⟩
    · intro hra
      simp [Zns.construct, Zns.checkNetworkConfig, hn, hfnn, hnp,
        Zns.checkCustomNetworkConfig, hra]
    · intro hra hurl hprov
      simp [Zns.construct, Zns.checkNetworkConfig, hn, hfnn, hnp,
        Zns.checkCustomNetworkConfig, hra, hurl, hprov]
    · intro addr haddr hane hup hbad
      have hfa : strFalsy (some addr) = false := by
        simp [strFalsy, hane]
      rcases hup with hu | hp
      · simp [Zns.construct, Zns.checkNetworkConfig, hn, hfnn, hnp,
          Zns.checkCustomNetworkConfig, hfa, hu, haddr,
          Zns.checkRegistryAddress, hbad]
      · simp [Zns.construct, Zns.checkNetworkConfig, hn, hfnn, hnp,
          Zns.checkCustomNetworkConfig, hfa, hp, haddr,
          Zns.checkRegistryAddress, hbad]
    · intro addr haddr hane hup hok
      have hfa : strFalsy (some addr) = false := by
        simp [strFalsy, hane]
      cases hc : Zns.construct tb source with
      | ok cfg => exact ⟨cfg, rfl⟩
      | error e =>
          exfalso
          rcases hup with hu | hp
          · simp [Zns.construct, Zns.checkNetworkConfig, hn, hfnn, hnp,
              Zns.checkCustomNetworkConfig, hfa, hu, haddr,
              Zns.checkRegistryAddress, hok] at hc
          · simp [Zns.construct, Zns.checkNetworkConfig, hn, hfnn, hnp,
              Zns.checkCustomNetworkConfig, hfa, hp, haddr,
              Zns.checkRegistryAddress, hok] at hc
  · intro n addr hn hnp haddr hane hbad
    have hne : n ≠ "" := by
      intro h0
      rw [h0] at hnp
      simp [znsPresetNetworks] at hnp
    have hfnn : strFalsy (some n) = false := by
      simp [strFalsy, hne]
    have hfa : strFalsy (some addr) = false := by
      simp [strFalsy, hane]
    simp [Zns.construct, Zns.checkNetworkConfig, hn, hfnn, hnp, hfa,
      haddr, Zns.checkRegistryAddress, hbad]

/-- A concrete custom-network source with no registry address. -/
def znsSourceCustomMissing : ZnsSource :=
  { network := some "customnet"
    url := some "https://example.com"
    hasProvider := false
    registryAddress := none }

/-- C9 witness: the concrete custom-network source without a registry
address fails CustomNetworkConfigMissing. -/
theorem c9_zns_construction_witness :
    "customnet" ∉ znsPresetNetworks
    ∧ Zns.construct (fun s => s) znsSourceCustomMissing =
        .error .CustomNetworkConfigMissing :=
  ⟨by decide,
   ((c9_zns_construction znsSourceCustomMissing (fun s => s)).1 "customnet"
      (by rfl) (by decide) (by decide)).1 (by decide)⟩

/-- C10: a registered, resolved domain whose stored value under a key
is the empty string: the single-key read fails RecordNotFound while the
batched records read succeeds and maps the key to the empty string. -/
theorem c10_empty_record_value (st : ZnsState) (domain key : String)
    (hdom : Zns.checkDomain domain = true)
    (o r : String) (hreg : st.registry (st.namehash domain) = some (o, r))
    (ho : (if strStartsWith o "0x" then st.toBech32 o else o) ≠ "")
    (hr : isNullAddress (some r) = false)
    (hv : objGet (st.resolverRecords (st.toChecksum r)) key = some "") :
    Zns.record st domain key = .error .RecordNotFound
    ∧ Zns.records st domain [key] =
        .ok (constructRecords [key]
          (.map (st.resolverRecords (st.toChecksum r))))
    ∧ objGet (constructRecords [key]
        (.map (st.resolverRecords (st.toChecksum r)))) key = some "" := by
  have hres : Zns.resolver st domain = .ok r := by
    simp [Zns.resolver, Zns.getRecordsAddresses, Zns.namehashE, hdom, hreg,
      ho, hr]
  have hallr : Zns.allRecords st domain =
      .ok (st.resolverRecords (st.toChecksum r)) := by
    simp [Zns.allRecords, hres, Zns.getResolverRecords, hr]
  have hrecs : Zns.records st domain [key] =
      .ok (constructRecords [key]
        (.map (st.resolverRecords (st.toChecksum r)))) := by
    simp [Zns.records, hallr]
  have hget : objGet (constructRecords [key]
      (.map (st.resolverRecords (st.toChecksum r)))) key = some "" := by
    rw [objGet_constructRecords_key [key]
      (ValuesArg.map (st.resolverRecords (st.toChecksum r))) key ""
      (fun j _ => by simp [valueFor, hv])]
    simp
  refine ⟨?_, hrecs, hget⟩
  simp [Zns.record, hrecs, hget]

/-- C10 witness: on the concrete chain state the empty-valued key fails
the single read and succeeds in the batched read. -/
theorem c10_empty_record_value_witness :
    objGet (znsStateFull.resolverRecords
      (znsStateFull.toChecksum "zil1resolver")) "empty.key" = some ""
    ∧ Zns.record znsStateFull "brad.zil" "empty.key" =
        .error .RecordNotFound :=
  ⟨by decide,
   (c10_empty_record_value znsStateFull "brad.zil" "empty.key" (by decide)
      "zil1owner2" "zil1resolver" (by rfl) (by decide) (by decide)
      (by decide)).1⟩
